import Mathlib

/-!
# GoIntercept — handler adaptation and interceptor-chain execution engine

Shallow embedding of the middleware engine in `handler.go` (package
`gointercept`) together with the pieces of `converter.go` it calls.

Modelling conventions:
* Go's `interface{}` values flowing through a chain are embedded
  polymorphically (a concrete execution instantiates the value type), and
  the adapter part uses the concrete dynamic-value type `Dyn` below.
* Go's nil-able `error` is `Option ε` (`none` = nil).
* `context.Context` is opaque to the engine (it is only passed through), so
  it is a type parameter `χ`.
* Function values are total Lean functions; reflection over a Go function's
  shape is embedded by the `GoFunc` record carrying the argument / return
  types (`reflect.Type.In/Out`) and the function's behaviour (`call`,
  standing for `reflect.Value.Call`).
-/

set_option autoImplicit false

namespace GoIntercept

universe u v w

variable {χ : Type u} {α : Type v} {ε : Type w}

/-- Embeds `type LambdaHandler func(context.Context, interface{}) (interface{}, error)`
from handler.go. -/
def LambdaHandler (χ : Type u) (α : Type v) (ε : Type w) : Type (max u v w) :=
  χ → α → α × Option ε

/-- Embeds `type ErrorHandler func(context.Context, interface{}, error) (interface{}, error)`
from handler.go.  The `error` argument is always non-nil at its call site,
so it is a bare `ε`. -/
def ErrorHandler (χ : Type u) (α : Type v) (ε : Type w) : Type (max u v w) :=
  χ → α → ε → α × Option ε

/-- Embeds `type Interceptor struct { Before, After LambdaHandler; OnError ErrorHandler }`
from handler.go; nil function fields are `none`. -/
structure Interceptor (χ : Type u) (α : Type v) (ε : Type w) where
  before : Option (LambdaHandler χ α ε)
  after : Option (LambdaHandler χ α ε)
  onError : Option (ErrorHandler χ α ε)

/-- Embeds `func processError(response interface{}, interceptor Interceptor, ctx context.Context, err error)`
from handler.go lines 54-60: hand the (non-nil) error to this layer's
`OnError` if present, otherwise return `(response, err)` unchanged. -/
def processError (response : α) (interceptor : Interceptor χ α ε) (ctx : χ) (err : ε) :
    α × Option ε :=
  match interceptor.onError with
  | some onError => onError ctx response err
  | none => (response, some err)

/-- Embeds `func (interceptor Interceptor) handle(handler LambdaHandler) LambdaHandler`
from handler.go lines 26-52: run `Before` (if present), short-circuiting to
`processError` on a non-nil error; then the wrapped `handler`; then `After`
(if present); each with the same short-circuit. -/
def Interceptor.handle (interceptor : Interceptor χ α ε) (handler : LambdaHandler χ α ε) :
    LambdaHandler χ α ε :=
  fun ctx request =>
    match (match interceptor.before with
           | some before => before ctx request
           | none => (request, none)) with
    | (response, some err) => processError response interceptor ctx err
    | (response, none) =>
      match handler ctx response with
      | (response, some err) => processError response interceptor ctx err
      | (response, none) =>
        match interceptor.after with
        | some after =>
          match after ctx response with
          | (response, some err) => processError response interceptor ctx err
          | (response, none) => (response, none)
        | none => (response, none)

/-- Embeds `type InterceptedHandler struct { handler LambdaHandler }` from handler.go. -/
structure InterceptedHandler (χ : Type u) (α : Type v) (ε : Type w) where
  handler : LambdaHandler χ α ε

/-- Embeds `func (a *InterceptedHandler) With(adapters ...Interceptor) LambdaHandler`
from handler.go lines 73-81.  The Go loop walks `adapters` from last to
first, wrapping the accumulator each time, which is exactly a right fold:
the first interceptor ends up outermost. -/
def InterceptedHandler.With (a : InterceptedHandler χ α ε)
    (adapters : List (Interceptor χ α ε)) : LambdaHandler χ α ε :=
  adapters.foldr (fun adapter handler => adapter.handle handler) a.handler

/-! ## Handler adaptation (`newHandler` and its validation helpers) -/

/-- A Go `error` value as produced by the adapter and the codec:
`msg` embeds a `fmt.Errorf` product, `jsonSyn` a `*json.SyntaxError`
(message and byte `Offset`), `jsonType` a `*json.UnmarshalTypeError`
(JSON value kind, target type name, byte `Offset`), `custom` any other
collaborator-made error. -/
inductive GoErr : Type where
  | msg (s : String) : GoErr
  | jsonSyn (m : String) (offset : Nat) : GoErr
  | jsonType (value : String) (typ : String) (offset : Nat) : GoErr
  | custom (s : String) : GoErr
deriving DecidableEq, Repr

/-- A Go `interface{}` value as the adapter sees it: nil, a string, an
integer, or a value whose dynamic type implements `error` (the only
distinction `newHandler` inspects, via the `response[...].Interface().(error)`
type assertion). -/
inductive Dyn : Type where
  | vnil : Dyn
  | vstr (s : String) : Dyn
  | vint (n : Int) : Dyn
  | verr (e : GoErr) : Dyn
deriving DecidableEq, Repr

/-- One `reflect.Type` as the validators inspect it: whether it implements
`context.Context`, whether it implements `error`, and its `Kind` string
(used only inside an error message). -/
structure GoType : Type where
  implementsContext : Bool
  implementsError : Bool
  kindName : String
deriving DecidableEq, Repr, Inhabited

/-- An application-supplied Go function as `newHandler` reflects on it:
its argument types (`reflect.Type.In`), its return types
(`reflect.Type.Out`), the JSON decoding of a byte payload into a fresh
instance of its last argument type (`json.Unmarshal` at that type — the
codec is external, so its behaviour at this input type is a field), and
its behaviour under `reflect.Value.Call`, given the context and the
decoded event argument when the shape declares them.  Non-function and
nil handler values (rejected with `InvalidHandlerKind` before any of this
is consulted) are outside this record. -/
structure GoFunc (χ : Type u) : Type u where
  inTypes : List GoType
  outTypes : List GoType
  unmarshal : String → Except GoErr Dyn
  call : χ → Option Dyn → List Dyn

/-- Embeds `func validateArguments(handler reflect.Type) (bool, error)` from
handler.go lines 155-169. -/
def validateArguments {χ : Type u} (handler : GoFunc χ) : Except GoErr Bool :=
  if handler.inTypes.length > 2 then
    Except.error (GoErr.msg
      ("handlers may not take more than two arguments, but handler takes "
        ++ toString handler.inTypes.length))
  else
    match handler.inTypes with
    | [] => Except.ok false
    | argumentType :: _ =>
      if handler.inTypes.length > 1 && !argumentType.implementsContext then
        Except.error (GoErr.msg
          ("handler takes two arguments, but the first is not Context. got "
            ++ argumentType.kindName))
      else
        Except.ok argumentType.implementsContext

/-- Embeds `func validateReturns(handler reflect.Type) error` from
handler.go lines 171-188. -/
def validateReturns {χ : Type u} (handler : GoFunc χ) : Option GoErr :=
  if handler.outTypes.length > 2 then
    some (GoErr.msg "handler may not return more than two values")
  else if handler.outTypes.length > 1 then
    if !(handler.outTypes.getD 1 default).implementsError then
      some (GoErr.msg "handler returns two values, but the second does not implement error")
    else none
  else if handler.outTypes.length == 1 then
    if !(handler.outTypes.getD 0 default).implementsError then
      some (GoErr.msg "handler returns a single value, but it does not implement error")
    else none
  else none

/-- The JSON text `encoding/json` produces for the `Dyn` forms above
(none of which can fail to encode): nil is `null`, numbers and plain
strings print directly, and an error value made by `errors.New` has no
exported fields, so it encodes as an empty object. -/
def encodeJson : Dyn → String
  | Dyn.vnil => "null"
  | Dyn.vstr s => "\x22" ++ s ++ "\x22"
  | Dyn.vint n => toString n
  | Dyn.verr _ => "\x7b\x7d"

/-- Embeds `func GetBytes(key interface{}) ([]byte, error)` from
converter.go: JSON-encode the value with `json.NewEncoder(..).Encode`,
which appends a newline.  Encoding never fails on the `Dyn` forms. -/
def GetBytes (key : Dyn) : Except GoErr String :=
  Except.ok (encodeJson key ++ "\n")

/-- Embeds handler.go lines 140-151: the mapping from the reflective call's
result slice to the canonical `(value, error)` pair.  The last position, if
its dynamic value type-asserts to `error`, becomes the error result; the
first position becomes the value result only when a second result exists;
otherwise the value result stays the nil interface. -/
def mapCallResults (response : List Dyn) : Dyn × Option GoErr :=
  let err : Option GoErr :=
    match response.getLast? with
    | some (Dyn.verr e) => some e
    | _ => none
  let val : Dyn :=
    if response.length > 1 then response.headD Dyn.vnil else Dyn.vnil
  (val, err)

/-- Embeds `func errorHandler(e error) LambdaHandler` from handler.go
lines 88-92. -/
def errorHandler {χ : Type u} (e : GoErr) : LambdaHandler χ Dyn GoErr :=
  fun _ _ => (Dyn.vnil, some e)

/-- Embeds `func newHandler(handlerFunc interface{}) LambdaHandler` from
handler.go lines 94-153 for function-shaped arguments: validate the
argument and return shapes once, returning a constantly-failing handler
on a validation error; otherwise produce the closure that (when the shape
declares an input-value parameter) serializes the payload, decodes it into
a fresh instance of the declared input type — returning the codec's error
unchanged on failure, before the application function is called — then
invokes the function and maps its result slice. -/
def newHandler {χ : Type u} (f : GoFunc χ) : LambdaHandler χ Dyn GoErr :=
  match validateArguments f with
  | Except.error e => errorHandler e
  | Except.ok takesContext =>
    match validateReturns f with
    | some e => errorHandler e
    | none =>
      fun ctx payload =>
        if (f.inTypes.length == 1 && !takesContext) || f.inTypes.length == 2 then
          match GetBytes payload with
          | Except.error e => (Dyn.vnil, some e)
          | Except.ok payloadBytes =>
            match f.unmarshal payloadBytes with
            | Except.error e => (Dyn.vnil, some e)
            | Except.ok event => mapCallResults (f.call ctx (some event))
        else
          mapCallResults (f.call ctx none)

/-- Embeds `func This(handler interface{}) *InterceptedHandler` from
handler.go lines 84-86, for function-shaped arguments. -/
def This {χ : Type u} (handler : GoFunc χ) : InterceptedHandler χ Dyn GoErr :=
  ⟨newHandler handler⟩

/-! ## Concrete fixtures

Instrumented interceptors over trace-valued payloads (the value type is the
list of phase labels executed so far, so execution order is visible in the
result), and concrete `GoFunc` records mirroring the handler shapes in the
repository's README and tests. -/

namespace Trace

/-- A phase that appends its label to the trace and succeeds. -/
def tag (s : String) : LambdaHandler Unit (List String) String :=
  fun _ v => (v ++ [s], none)

/-- An interceptor with tracing `Before` and `After` phases and no `OnError`. -/
def tagI (nm : String) : Interceptor Unit (List String) String :=
  ⟨some (tag (nm ++ ".Before")), some (tag (nm ++ ".After")), none⟩

/-- A core handler that appends `core` to the trace and succeeds. -/
def coreT : LambdaHandler Unit (List String) String := tag "core"

/-- Layer `A`: all three phases, `OnError` re-raising the error after
recording itself. -/
def aI : Interceptor Unit (List String) String :=
  ⟨some (tag "A.Before"), some (tag "A.After"),
   some (fun _ v e => (v ++ ["A.OnError"], some e))⟩

/-- Layer `B` whose `Before` phase fails with the error `boom`. -/
def bBad : Interceptor Unit (List String) String :=
  ⟨some (fun _ v => (v ++ ["B.Before"], some "boom")), some (tag "B.After"),
   some (fun _ v e => (v ++ ["B.OnError"], some e))⟩

/-- Layer `C`: all three phases, `OnError` re-raising the error. -/
def cI : Interceptor Unit (List String) String :=
  ⟨some (tag "C.Before"), some (tag "C.After"),
   some (fun _ v e => (v ++ ["C.OnError"], some e))⟩

/-- A core handler that records itself and fails with `boom`. -/
def coreFail : LambdaHandler Unit (List String) String :=
  fun _ v => (v ++ ["core"], some "boom")

/-- Outer absorption-test layer: only an `After` phase. -/
def absorbA : Interceptor Unit (List String) String :=
  ⟨none, some (tag "A.After"), none⟩

/-- Inner absorption-test layer: only an `OnError` phase that swallows the
error, returning a nil error. -/
def absorbB : Interceptor Unit (List String) String :=
  ⟨none, none, some (fun _ v _ => (v ++ ["B.OnError"], none))⟩

/-- Inner absorption-test layer with a `Before` phase of its own, whose
`OnError` swallows the error, returning a nil error. -/
def bAbsorbPre : Interceptor Unit (List String) String :=
  ⟨some (tag "B.Before"), none, some (fun _ v _ => (v ++ ["B.OnError"], none))⟩

/-- Layer `D`: a succeeding `Before` phase and an `After` phase that fails
with the error `boom`; no `OnError`. -/
def dAfterFail : Interceptor Unit (List String) String :=
  ⟨some (tag "D.Before"), some (fun _ v => (v ++ ["D.After"], some "boom")), none⟩

end Trace

/-- A first-argument type implementing `context.Context`. -/
def ctxType : GoType := ⟨true, false, "interface"⟩

/-- A struct input type (implements neither `context.Context` nor `error`),
as the `Input` struct of the README / tests. -/
def structInputType : GoType := ⟨false, false, "struct"⟩

/-- A non-error result type, as the `*Output` of the README / tests. -/
def ptrOutputType : GoType := ⟨false, false, "ptr"⟩

/-- The `error` interface as a return type. -/
def errType : GoType := ⟨false, true, "interface"⟩

/-- Models Go's `encoding/json` when unmarshalling into the sample `Input`
struct of the tests: a JSON document that is a string (it begins with a
quote) cannot be stored in a struct, so `json.Unmarshal` fails with a
`*json.UnmarshalTypeError` recording the JSON value kind (`string`), the
target type name and the byte offset at the end of the offending token —
and nothing else: Go's json errors do not retain the input bytes.  A JSON
`null` leaves the freshly allocated zero value in place. -/
def unmarshalInputStruct (s : String) : Except GoErr Dyn :=
  match s.data with
  | c :: _ =>
    if c = Char.ofNat 34 then
      Except.error (GoErr.jsonType "string" "Input" (s.length - 1))
    else
      Except.ok Dyn.vnil
  | [] => Except.ok Dyn.vnil

/-- The adapted shape of `simpleFunction(ctx context.Context, input Input) (*Output, error)`
from the tests, with its reflective call left unexercised (the decode
counterexample never reaches it). -/
def cexDecodeFunc : GoFunc Unit :=
  ⟨[ctxType, structInputType], [ptrOutputType, errType], unmarshalInputStruct,
   fun _ _ => [Dyn.vnil, Dyn.vnil]⟩

/-- A three-argument callable, for the `TooManyArguments` fixture. -/
def tooManyFunc : GoFunc Unit :=
  ⟨[ctxType, structInputType, structInputType], [ptrOutputType, errType],
   unmarshalInputStruct, fun _ _ => [Dyn.vnil, Dyn.vnil]⟩

/-- A callable with exactly one return value that is not error-shaped. -/
def singleRetFunc : GoFunc Unit :=
  ⟨[ctxType], [ptrOutputType], unmarshalInputStruct, fun _ _ => [Dyn.vnil]⟩

/-- A context-only callable returning a value and a nil error, for the
return-tuple-mapping fixture (no input-value parameter, so nothing is
decoded). -/
def ctxOnlyFunc : GoFunc Unit :=
  ⟨[ctxType], [ptrOutputType, errType], unmarshalInputStruct,
   fun _ _ => [Dyn.vstr "out", Dyn.vnil]⟩

/-- The `TooManyArguments` validation error for a handler of `n` arguments,
exactly as `fmt.Errorf` formats it in `validateArguments`. -/
def tooManyArgsErr (n : Nat) : GoErr :=
  GoErr.msg ("handlers may not take more than two arguments, but handler takes "
    ++ toString n)

/-- The `InvalidSingleReturn` validation error, exactly as `validateReturns`
formats it. -/
def invalidSingleReturnErr : GoErr :=
  GoErr.msg "handler returns a single value, but it does not implement error"

/-! ## Theorems -/

/-- C2.  Onion composition order: `With` nests the first interceptor of the
sequence outermost (peeling one interceptor off the front of the sequence
wraps it around the chain built from the rest), and for three interceptors
`A`, `B`, `C` with tracing `Before`/`After` phases around a tracing core,
the phases execute in exactly the order
`A.Before, B.Before, C.Before, core, C.After, B.After, A.After`. -/
theorem onion_composition_order :
    (∀ (χ : Type u) (α : Type v) (ε : Type w) (core : LambdaHandler χ α ε)
      (i : Interceptor χ α ε) (rest : List (Interceptor χ α ε)),
      (InterceptedHandler.mk core).With (i :: rest)
        = i.handle ((InterceptedHandler.mk core).With rest)) ∧
    (InterceptedHandler.mk Trace.coreT).With [Trace.tagI "A", Trace.tagI "B", Trace.tagI "C"] () []
      = (["A.Before", "B.Before", "C.Before", "core", "C.After", "B.After", "A.After"], none) :=
  ⟨fun _ _ _ _ _ _ => rfl, rfl⟩

/-- C3.  Before short-circuit: if a layer's `Before` returns a non-nil
error, the layer returns the result of its ERROR transition immediately —
the result does not depend on the wrapped inner callable or on the layer's
`After` phase — and in the chain `[A, B, C]` where `B.Before` fails,
`C.Before`, the core and every `After` phase never execute while only `B`'s
and `A`'s `OnError` observe the error. -/
theorem before_short_circuit {χ : Type u} {α : Type v} {ε : Type w}
    (i : Interceptor χ α ε) (b inner : LambdaHandler χ α ε) (ctx : χ) (req r : α) (e : ε)
    (hb : i.before = some b) (hrun : b ctx req = (r, some e)) :
    i.handle inner ctx req = processError r i ctx e ∧
    (∀ (inner' : LambdaHandler χ α ε) (a' : Option (LambdaHandler χ α ε)),
      i.handle inner ctx req
        = Interceptor.handle ⟨i.before, a', i.onError⟩ inner' ctx req) ∧
    (InterceptedHandler.mk Trace.coreT).With [Trace.aI, Trace.bBad, Trace.cI] () []
      = (["A.Before", "B.Before", "B.OnError", "A.OnError"], some "boom") := by
  refine ⟨?_, ?_, rfl⟩
  · simp [Interceptor.handle, hb, hrun]
  · intro inner' a'
    simp [Interceptor.handle, hb, hrun, processError]

/-- Witness for C3 at layer `B` of the trace fixture. -/
theorem before_short_circuit_witness :
    Interceptor.handle Trace.bBad Trace.coreT () []
      = processError ["B.Before"] Trace.bBad () "boom" :=
  (before_short_circuit Trace.bBad (fun _ v => (v ++ ["B.Before"], some "boom"))
    Trace.coreT () [] ["B.Before"] "boom" rfl rfl).1

/-- C9.  Empty chain is the identity of composition: `This(f).With()` is the
adapted core handler itself, both as a function and pointwise on every
context and request value. -/
theorem with_no_interceptors_is_core {χ : Type u} (f : GoFunc χ) :
    (This f).With [] = newHandler f ∧
    ∀ (ctx : χ) (v : Dyn), (This f).With [] ctx v = newHandler f ctx v :=
  ⟨rfl, fun _ _ => rfl⟩

/-- C10.  An interceptor with all three phases absent is an identity layer:
wrapping any inner handler with it returns exactly the inner handler's
result, on success and on error alike. -/
theorem phaseless_interceptor_identity {χ : Type u} {α : Type v} {ε : Type w}
    (inner : LambdaHandler χ α ε) (ctx : χ) (v : α) :
    Interceptor.handle ⟨none, none, none⟩ inner ctx v = inner ctx v := by
  rcases h : inner ctx v with ⟨r, e⟩
  cases e <;> simp [Interceptor.handle, processError, h]

/-- C1.  Error absorption re-enters the success path, Before phases
included: for a chain `[A, B]` whose layers may each have a `Before` phase
(absent, or present and succeeding — `r1` is the value `A` hands inward,
`r2` the value `B` hands the core), if the core fails and `B.OnError`
returns `(v, nil)`, then layer `B` as a whole returns `(v, nil)`; the
enclosing layer `A` treats any inner result `(v, nil)` as an ordinary
successful inner result and proceeds to run its own `After` phase on `v`;
and the whole chain returns what `A.After` produces with a nil error. -/
theorem error_absorption_reenters_success {χ : Type u} {α : Type v} {ε : Type w}
    (A B : Interceptor χ α ε) (core : LambdaHandler χ α ε) (ctx : χ)
    (req r1 r2 v0 v v' : α) (e : ε) (f : ErrorHandler χ α ε) (g : LambdaHandler χ α ε)
    (hApre : (A.before = none ∧ r1 = req) ∨
      (∃ bA, A.before = some bA ∧ bA ctx req = (r1, none)))
    (hAa : A.after = some g)
    (hBpre : (B.before = none ∧ r2 = r1) ∨
      (∃ bB, B.before = some bB ∧ bB ctx r1 = (r2, none)))
    (hBe : B.onError = some f)
    (hcore : core ctx r2 = (v0, some e))
    (habs : f ctx v0 e = (v, none))
    (hg : g ctx v = (v', none)) :
    B.handle core ctx r1 = (v, none) ∧
    (∀ inner : LambdaHandler χ α ε, inner ctx r1 = (v, none) →
      A.handle inner ctx req = (v', none)) ∧
    (InterceptedHandler.mk core).With [A, B] ctx req = (v', none) := by
  have habsorbed : B.handle core ctx r1 = (v, none) := by
    rcases hBpre with ⟨hb, hr2⟩ | ⟨bB, hb, hbrun⟩
    · subst hr2
      simp [Interceptor.handle, hb, hcore, processError, hBe, habs]
    · simp [Interceptor.handle, hb, hbrun, hcore, processError, hBe, habs]
  have houter : ∀ inner : LambdaHandler χ α ε, inner ctx r1 = (v, none) →
      A.handle inner ctx req = (v', none) := by
    intro inner hinner
    rcases hApre with ⟨hb, hr1⟩ | ⟨bA, hb, hbrun⟩
    · subst hr1
      simp [Interceptor.handle, hb, hinner, hAa, hg]
    · simp [Interceptor.handle, hb, hbrun, hinner, hAa, hg]
  exact ⟨habsorbed, houter, houter (B.handle core) habsorbed⟩

/-- Witness for C1 with Before phases present on both layers: `A.Before` and
`B.Before` run, the core fails, `B.OnError` swallows the error, and
`A.After` runs on the absorbed value, the chain succeeding. -/
theorem error_absorption_witness :
    (InterceptedHandler.mk Trace.coreFail).With [Trace.aI, Trace.bAbsorbPre] () []
      = (["A.Before", "B.Before", "core", "B.OnError", "A.After"], none) :=
  (error_absorption_reenters_success Trace.aI Trace.bAbsorbPre Trace.coreFail ()
    [] ["A.Before"] ["A.Before", "B.Before"] ["A.Before", "B.Before", "core"]
    ["A.Before", "B.Before", "core", "B.OnError"]
    ["A.Before", "B.Before", "core", "B.OnError", "A.After"] "boom"
    (fun _ v _ => (v ++ ["B.OnError"], none)) (Trace.tag "A.After")
    (Or.inr ⟨Trace.tag "A.Before", rfl, rfl⟩) rfl
    (Or.inr ⟨Trace.tag "B.Before", rfl, rfl⟩) rfl rfl rfl rfl).2.2

/-- C4.  ERROR transition semantics: `processError` returns
`OnError(ctx, response, err)` verbatim when `OnError` is present and
`(response, err)` unchanged when it is absent; and whenever a layer's
`Before`, inner call, or `After` yields a non-nil error, the layer returns
exactly `processError` of that response and error.  For the inner-call and
`After` sites the layer's own `Before` may be absent, or present and
succeeding with output `r1` (the value handed to the inner callable). -/
theorem error_transition_semantics {χ : Type u} {α : Type v} {ε : Type w}
    (i : Interceptor χ α ε) (inner : LambdaHandler χ α ε) (ctx : χ)
    (req r1 r r0 : α) (e : ε) :
    (∀ f : ErrorHandler χ α ε, i.onError = some f →
      processError r i ctx e = f ctx r e) ∧
    (i.onError = none → processError r i ctx e = (r, some e)) ∧
    (∀ b : LambdaHandler χ α ε, i.before = some b → b ctx req = (r, some e) →
      i.handle inner ctx req = processError r i ctx e) ∧
    ((i.before = none ∧ r1 = req) ∨
        (∃ b, i.before = some b ∧ b ctx req = (r1, none)) →
      inner ctx r1 = (r, some e) →
      i.handle inner ctx req = processError r i ctx e) ∧
    ((i.before = none ∧ r1 = req) ∨
        (∃ b, i.before = some b ∧ b ctx req = (r1, none)) →
      inner ctx r1 = (r0, none) →
      ∀ a : LambdaHandler χ α ε, i.after = some a → a ctx r0 = (r, some e) →
      i.handle inner ctx req = processError r i ctx e) := by
  refine ⟨?_, ?_, ?_, ?_, ?_⟩
  · intro f hf
    simp [processError, hf]
  · intro hnone
    simp [processError, hnone]
  · intro b hb hrun
    simp [Interceptor.handle, hb, hrun]
  · rintro (⟨hb, hr1⟩ | ⟨b, hb, hbrun⟩) hinner
    · subst hr1
      simp [Interceptor.handle, hb, hinner]
    · simp [Interceptor.handle, hb, hbrun, hinner]
  · rintro (⟨hb, hr1⟩ | ⟨b, hb, hbrun⟩) hok a ha hrun
    · subst hr1
      simp [Interceptor.handle, hb, hok, ha, hrun]
    · simp [Interceptor.handle, hb, hbrun, hok, ha, hrun]

/-- Witness for C4: `OnError` present receives the tuple verbatim; `OnError`
absent forwards the error and its value payload unchanged; a layer whose
`Before` runs and succeeds returns `processError` when the inner call
errors (layer `C` over the failing core) and when its `After` errors
(layer `D` over the succeeding core). -/
theorem error_transition_witness :
    processError ([] : List String) Trace.bBad () "boom" = (["B.OnError"], some "boom") ∧
    processError ([] : List String)
      (⟨none, none, none⟩ : Interceptor Unit (List String) String) () "boom"
      = ([], some "boom") ∧
    Interceptor.handle Trace.cI Trace.coreFail () []
      = processError ["C.Before", "core"] Trace.cI () "boom" ∧
    Interceptor.handle Trace.dAfterFail Trace.coreT () []
      = processError ["D.Before", "core", "D.After"] Trace.dAfterFail () "boom" :=
  ⟨(error_transition_semantics Trace.bBad Trace.coreT () [] [] [] [] "boom").1
      (fun _ v e => (v ++ ["B.OnError"], some e)) rfl,
   (error_transition_semantics (⟨none, none, none⟩ : Interceptor Unit (List String) String)
      Trace.coreT () [] [] [] [] "boom").2.1 rfl,
   (error_transition_semantics Trace.cI Trace.coreFail () []
      ["C.Before"] ["C.Before", "core"] [] "boom").2.2.2.1
      (Or.inr ⟨Trace.tag "C.Before", rfl, rfl⟩) rfl,
   (error_transition_semantics Trace.dAfterFail Trace.coreT () []
      ["D.Before"] ["D.Before", "core", "D.After"] ["D.Before", "core"] "boom").2.2.2.2
      (Or.inr ⟨Trace.tag "D.Before", rfl, rfl⟩) rfl
      (fun _ v => (v ++ ["D.After"], some "boom")) rfl rfl⟩

/-- C6.  Argument-count validation: a callable with more than two arguments
is rejected by `validateArguments` with the `TooManyArguments` error, the
adapted handler is the constantly-failing `errorHandler` on that error (so
every invocation returns `(nil, TooManyArguments)`), and the application
function is never invoked — the produced handler's behaviour does not
depend on the `call` field at all. -/
theorem too_many_arguments_rejection {χ : Type u} (f : GoFunc χ)
    (h : f.inTypes.length > 2) :
    validateArguments f = Except.error (tooManyArgsErr f.inTypes.length) ∧
    newHandler f = errorHandler (tooManyArgsErr f.inTypes.length) ∧
    (∀ (call' : χ → Option Dyn → List Dyn) (ctx : χ) (p : Dyn),
      newHandler { f with call := call' } ctx p
        = (Dyn.vnil, some (tooManyArgsErr f.inTypes.length))) := by
  have hv : validateArguments f = Except.error (tooManyArgsErr f.inTypes.length) := by
    simp [validateArguments, h, tooManyArgsErr]
  refine ⟨hv, ?_, ?_⟩
  · simp [newHandler, hv]
  · intro call' ctx p
    have hv' : validateArguments { f with call := call' }
        = Except.error (tooManyArgsErr f.inTypes.length) := hv
    simp [newHandler, hv', errorHandler]

/-- Witness for C6 at a three-argument callable. -/
theorem too_many_arguments_witness :
    newHandler tooManyFunc () Dyn.vnil = (Dyn.vnil, some (tooManyArgsErr 3)) := by
  have h := (too_many_arguments_rejection tooManyFunc (by decide)).2.1
  rw [h]
  rfl

/-- C7.  Single-return validation: a callable whose single return type does
not implement `error` is rejected by `validateReturns` with the
`InvalidSingleReturn` error (given its argument shape is valid), and the
produced handler constantly returns that validation failure. -/
theorem invalid_single_return_rejection {χ : Type u} (f : GoFunc χ) (tc : Bool) (t : GoType)
    (h1 : validateArguments f = Except.ok tc)
    (h2 : f.outTypes = [t]) (h3 : t.implementsError = false) :
    validateReturns f = some invalidSingleReturnErr ∧
    newHandler f = errorHandler invalidSingleReturnErr ∧
    (∀ (ctx : χ) (p : Dyn),
      newHandler f ctx p = (Dyn.vnil, some invalidSingleReturnErr)) := by
  have hr : validateReturns f = some invalidSingleReturnErr := by
    simp [validateReturns, h2, h3, invalidSingleReturnErr]
  refine ⟨hr, ?_, ?_⟩
  · simp [newHandler, h1, hr]
  · intro ctx p
    simp [newHandler, h1, hr, errorHandler]

/-- Witness for C7 at a `(Context) -> *Output` shaped callable. -/
theorem invalid_single_return_witness :
    newHandler singleRetFunc () Dyn.vnil = (Dyn.vnil, some invalidSingleReturnErr) :=
  (invalid_single_return_rejection singleRetFunc true ptrOutputType rfl rfl rfl).2.2 () Dyn.vnil

/-- C8.  Return-tuple mapping: whenever the application function actually
runs (validation passed and the decode step, when the shape declares an
input-value parameter, succeeded), the canonical result is the mapping of
the returned slice: the last position, when its dynamic value is
error-shaped, becomes the error result; the first position becomes the
value result exactly when a second return value exists; otherwise the value
result is nil. -/
theorem return_tuple_mapping {χ : Type u} (f : GoFunc χ) (tc : Bool) (ctx : χ) (p : Dyn)
    (evOpt : Option Dyn)
    (h1 : validateArguments f = Except.ok tc)
    (h2 : validateReturns f = none)
    (hbranch : if ((f.inTypes.length == 1 && !tc) || f.inTypes.length == 2) = true
               then ∃ bs ev, GetBytes p = Except.ok bs ∧ f.unmarshal bs = Except.ok ev
                      ∧ evOpt = some ev
               else evOpt = none) :
    newHandler f ctx p = mapCallResults (f.call ctx evOpt) ∧
    (∀ e, (f.call ctx evOpt).getLast? = some (Dyn.verr e) →
      (newHandler f ctx p).2 = some e) ∧
    ((∀ e, (f.call ctx evOpt).getLast? ≠ some (Dyn.verr e)) →
      (newHandler f ctx p).2 = none) ∧
    ((f.call ctx evOpt).length > 1 →
      (newHandler f ctx p).1 = (f.call ctx evOpt).headD Dyn.vnil) ∧
    ((f.call ctx evOpt).length ≤ 1 → (newHandler f ctx p).1 = Dyn.vnil) := by
  have main : newHandler f ctx p = mapCallResults (f.call ctx evOpt) := by
    by_cases hc : ((f.inTypes.length == 1 && !tc) || f.inTypes.length == 2) = true
    · rw [if_pos hc] at hbranch
      obtain ⟨bs, ev, hbs, hev, hopt⟩ := hbranch
      subst hopt
      simp [newHandler, h1, h2, hc, hbs, hev]
    · rw [if_neg hc] at hbranch
      subst hbranch
      simp [newHandler, h1, h2, hc]
  refine ⟨main, ?_, ?_, ?_, ?_⟩
  · intro e he
    rw [main]
    simp [mapCallResults, he]
  · intro hno
    rw [main]
    rcases hl : (f.call ctx evOpt).getLast? with _ | d
    · simp [mapCallResults, hl]
    · cases d with
      | vnil => simp [mapCallResults, hl]
      | vstr s => simp [mapCallResults, hl]
      | vint n => simp [mapCallResults, hl]
      | verr e => exact absurd hl (hno e)
  · intro hlen
    rw [main]
    simp [mapCallResults, hlen]
  · intro hlen
    have hnot : ¬((f.call ctx evOpt).length > 1) := by omega
    rw [main]
    simp [mapCallResults, hnot]

/-- Witness for C8 at a context-only callable returning `(value, nil)`. -/
theorem return_tuple_mapping_witness :
    newHandler ctxOnlyFunc () Dyn.vnil = (Dyn.vstr "out", none) :=
  ((return_tuple_mapping ctxOnlyFunc true () Dyn.vnil none rfl rfl rfl).1).trans rfl

/-- C5 (amended).  Decode failure isolation: when the adapted shape declares
an input-value parameter and deserializing the incoming payload fails, the
produced handler returns `(nil, e)` where `e` is the codec's decode error
unchanged (for syntax faults that error itself carries the byte offset,
which the code also logs), and the application function is never invoked —
the result does not depend on the `call` field. -/
theorem decode_failure_isolation {χ : Type u} (f : GoFunc χ) (tc : Bool) (ctx : χ)
    (p : Dyn) (bs : String) (je : GoErr)
    (h1 : validateArguments f = Except.ok tc)
    (h2 : validateReturns f = none)
    (h3 : ((f.inTypes.length == 1 && !tc) || f.inTypes.length == 2) = true)
    (h4 : GetBytes p = Except.ok bs)
    (h5 : f.unmarshal bs = Except.error je) :
    newHandler f ctx p = (Dyn.vnil, some je) ∧
    (∀ call' : χ → Option Dyn → List Dyn,
      newHandler { f with call := call' } ctx p = (Dyn.vnil, some je)) := by
  have hmain : ∀ call' : χ → Option Dyn → List Dyn,
      newHandler { f with call := call' } ctx p = (Dyn.vnil, some je) := by
    intro call'
    have h1' : validateArguments { f with call := call' } = Except.ok tc := h1
    have h2' : validateReturns { f with call := call' } = none := h2
    have h3' : ((({ f with call := call' } : GoFunc χ).inTypes.length == 1 && !tc)
        || ({ f with call := call' } : GoFunc χ).inTypes.length == 2) = true := h3
    have h5' : ({ f with call := call' } : GoFunc χ).unmarshal bs = Except.error je := h5
    simp [newHandler, h1', h2', h3', h4, h5', h5]
  exact ⟨hmain f.call, hmain⟩

/-- Witness for C5 (amended): the test fixture's handler shape applied to
the string payload `ab`, whose JSON encoding cannot decode into the `Input`
struct. -/
theorem decode_failure_isolation_witness :
    newHandler cexDecodeFunc () (Dyn.vstr "ab")
      = (Dyn.vnil, some (GoErr.jsonType "string" "Input" 4)) :=
  (decode_failure_isolation cexDecodeFunc true () (Dyn.vstr "ab") "\x22ab\x22\n"
    (GoErr.jsonType "string" "Input" 4) rfl rfl rfl rfl rfl).1

/-- C5 (counterexample).  The claim says the returned decode error carries
the offending raw payload.  It does not: the handler returns the codec's
error value unchanged, so the two distinct payloads `ab` and `ac` produce
identical results — the same `*json.UnmarshalTypeError` — and no function
can recover the offending payload from the returned error. -/
theorem decode_error_lacks_payload_cex :
    Dyn.vstr "ab" ≠ Dyn.vstr "ac" ∧
    newHandler cexDecodeFunc () (Dyn.vstr "ab")
      = newHandler cexDecodeFunc () (Dyn.vstr "ac") ∧
    (newHandler cexDecodeFunc () (Dyn.vstr "ab")).2
      = some (GoErr.jsonType "string" "Input" 4) ∧
    ¬ ∃ recover : GoErr → Dyn, ∀ (p : Dyn) (e : GoErr),
        (newHandler cexDecodeFunc () p).2 = some e → recover e = p := by
  refine ⟨by decide, rfl, rfl, ?_⟩
  rintro ⟨recover, hrec⟩
  have hab := hrec (Dyn.vstr "ab") (GoErr.jsonType "string" "Input" 4) rfl
  have hac := hrec (Dyn.vstr "ac") (GoErr.jsonType "string" "Input" 4) rfl
  have hcontra : Dyn.vstr "ab" = Dyn.vstr "ac" := hab.symm.trans hac
  exact absurd hcontra (by decide)

end GoIntercept
